import Mathlib

/-!
# Verification of the es_loader SIEM ingestion/normalization pipeline

This file is a shallow embedding, in Lean 4, of the core data-manipulation
algebra of `source/lambda/es_loader/siem/__init__.py`:

* `Value` models the Python/JSON data universe the pipeline manipulates
  (strings, ints, bools, string-keyed dicts, lists).
* `get_value_from_dict`, `put_value_into_dict`, `mergeV`, `del_noneV`,
  `get_mime`, `LogParser.indexname`, and the `epoch`/`syslog` branches of
  `LogParser.get_timestamp` are translated from the source, preserving the
  observable behaviour of the Python code (dict insertion order, first-match
  lookups, Python truthiness, exception paths mapped to `Option`/`Except`).

Theorems at the end of the file settle the frozen claims about this code.
-/

set_option maxHeartbeats 1000000

/-- The universe of values manipulated by the pipeline: JSON-decoded data plus
Python scalars.  Dicts are insertion-ordered association lists with string
keys, exactly as the Python dicts produced by `json.loads` / `csv` decoding. -/
inductive Value where
  | vstr : String → Value
  | vint : Int → Value
  | vbool : Bool → Value
  | vdict : List (String × Value) → Value
  | vlist : List Value → Value
deriving Repr

/-- Structural decidable equality for `Value` (the derive handler does not
support nested inductives, so it is written out by hand). -/
def decEqV (a b : Value) : Decidable (a = b) :=
  match a, b with
  | .vstr x, .vstr y =>
    match decEq x y with
    | isTrue h => isTrue (by rw [h])
    | isFalse h => isFalse (by intro hc; cases hc; exact h rfl)
  | .vint x, .vint y =>
    match decEq x y with
    | isTrue h => isTrue (by rw [h])
    | isFalse h => isFalse (by intro hc; cases hc; exact h rfl)
  | .vbool x, .vbool y =>
    match decEq x y with
    | isTrue h => isTrue (by rw [h])
    | isFalse h => isFalse (by intro hc; cases hc; exact h rfl)
  | .vdict x, .vdict y =>
    match decEqE x y with
    | isTrue h => isTrue (by rw [h])
    | isFalse h => isFalse (by intro hc; cases hc; exact h rfl)
  | .vlist x, .vlist y =>
    match decEqL x y with
    | isTrue h => isTrue (by rw [h])
    | isFalse h => isFalse (by intro hc; cases hc; exact h rfl)
  | .vstr _, .vint _ => isFalse (by intro h; cases h)
  | .vstr _, .vbool _ => isFalse (by intro h; cases h)
  | .vstr _, .vdict _ => isFalse (by intro h; cases h)
  | .vstr _, .vlist _ => isFalse (by intro h; cases h)
  | .vint _, .vstr _ => isFalse (by intro h; cases h)
  | .vint _, .vbool _ => isFalse (by intro h; cases h)
  | .vint _, .vdict _ => isFalse (by intro h; cases h)
  | .vint _, .vlist _ => isFalse (by intro h; cases h)
  | .vbool _, .vstr _ => isFalse (by intro h; cases h)
  | .vbool _, .vint _ => isFalse (by intro h; cases h)
  | .vbool _, .vdict _ => isFalse (by intro h; cases h)
  | .vbool _, .vlist _ => isFalse (by intro h; cases h)
  | .vdict _, .vstr _ => isFalse (by intro h; cases h)
  | .vdict _, .vint _ => isFalse (by intro h; cases h)
  | .vdict _, .vbool _ => isFalse (by intro h; cases h)
  | .vdict _, .vlist _ => isFalse (by intro h; cases h)
  | .vlist _, .vstr _ => isFalse (by intro h; cases h)
  | .vlist _, .vint _ => isFalse (by intro h; cases h)
  | .vlist _, .vbool _ => isFalse (by intro h; cases h)
  | .vlist _, .vdict _ => isFalse (by intro h; cases h)
where
  decEqE (x y : List (String × Value)) : Decidable (x = y) :=
    match x, y with
    | [], [] => isTrue rfl
    | (k, v) :: r, (k', v') :: r' =>
      match decEq k k', decEqV v v', decEqE r r' with
      | isTrue h1, isTrue h2, isTrue h3 => isTrue (by rw [h1, h2, h3])
      | isFalse h1, _, _ => isFalse (by intro hc; cases hc; exact h1 rfl)
      | _, isFalse h2, _ => isFalse (by intro hc; cases hc; exact h2 rfl)
      | _, _, isFalse h3 => isFalse (by intro hc; cases hc; exact h3 rfl)
    | [], _ :: _ => isFalse (by intro h; cases h)
    | _ :: _, [] => isFalse (by intro h; cases h)
  decEqL (x y : List Value) : Decidable (x = y) :=
    match x, y with
    | [], [] => isTrue rfl
    | v :: r, v' :: r' =>
      match decEqV v v', decEqL r r' with
      | isTrue h2, isTrue h3 => isTrue (by rw [h2, h3])
      | isFalse h2, _ => isFalse (by intro hc; cases hc; exact h2 rfl)
      | _, isFalse h3 => isFalse (by intro hc; cases hc; exact h3 rfl)
    | [], _ :: _ => isFalse (by intro h; cases h)
    | _ :: _, [] => isFalse (by intro h; cases h)

instance : DecidableEq Value := decEqV

/-- Python truthiness (`if v:`) for the values of our universe: non-empty
strings, non-zero integers, `True`, non-empty dicts and lists are truthy. -/
def truthy : Value → Bool
  | .vstr s => !(s == "")
  | .vint n => !(n == 0)
  | .vbool b => b
  | .vdict d => !d.isEmpty
  | .vlist l => !l.isEmpty

/-! ## String helpers

Python string operations used by the source (`str.split`, `in`, `str.strip`,
`str.replace`) are modelled over `List Char`, so that all definitions reduce
in the kernel. -/

/-- Characters matched by Python's `str.split()` / regex `\s`. -/
def isPySpace (c : Char) : Bool :=
  c == ' ' || c == '\t' || c == '\n' || c == '\r' ||
    c == Char.ofNat 11 || c == Char.ofNat 12

/-- Accumulator-style worker for whitespace splitting. -/
def wsSplitAux : List Char → List Char → List (List Char)
  | cur, [] => if cur.isEmpty then [] else [cur.reverse]
  | cur, c :: t =>
    if isPySpace c then
      if cur.isEmpty then wsSplitAux [] t else cur.reverse :: wsSplitAux [] t
    else wsSplitAux (c :: cur) t

/-- Python `s.split()` (no argument): split on whitespace runs, dropping
empty fields. -/
def pySplitWs (s : String) : List String :=
  (wsSplitAux [] s.data).map String.mk

/-- Worker for single-character splitting (Python `s.split('.')`), which keeps
empty fields and always yields at least one field. -/
def splitOnCharAux (sep : Char) : List Char → List Char → List (List Char)
  | cur, [] => [cur.reverse]
  | cur, c :: t =>
    if c == sep then cur.reverse :: splitOnCharAux sep [] t
    else splitOnCharAux sep (c :: cur) t

/-- Python `s.split('.')`, used for dotted-path decomposition. -/
def splitDots (s : String) : List String :=
  (splitOnCharAux '.' [] s.data).map String.mk

/-- Is `nee` a prefix of `hay`? -/
def listIsPrefixOf : List Char → List Char → Bool
  | [], _ => true
  | _ :: _, [] => false
  | c :: cs, d :: ds => c == d && listIsPrefixOf cs ds

/-- Substring containment over char lists. -/
def listContains (nee : List Char) : List Char → Bool
  | [] => listIsPrefixOf nee []
  | c :: t => listIsPrefixOf nee (c :: t) || listContains nee t

/-- Python's substring test `nee in hay`. -/
def pyIn (nee hay : String) : Bool := listContains nee.data hay.data

/-- Python `s.strip()`. -/
def pyStrip (s : String) : String :=
  String.mk (((s.data.dropWhile isPySpace).reverse.dropWhile isPySpace).reverse)

/-- Python `s.replace('Z', '+00:00')`, applied by `get_timestamp` before
format dispatch (the needle is a single character, so a character map
suffices). -/
def replaceZ (s : String) : String :=
  String.mk (s.data.foldr
    (fun c acc => if c == 'Z' then '+' :: '0' :: '0' :: ':' :: '0' :: '0' :: acc
                  else c :: acc) [])

/-- Numeric value of a list of decimal digit characters. -/
def natOfDigits (l : List Char) : Nat :=
  l.foldl (fun a c => a * 10 + (c.toNat - 48)) 0

/-- Python `int(k)` applied to a path segment: an optional minus sign followed
by decimal digits.  (Python also tolerates surrounding whitespace, a plus
sign and `_` digit separators; those never occur in configured paths and are
not modelled.) -/
def segToInt? (s : String) : Option Int :=
  match s.data with
  | [] => none
  | '-' :: rest =>
    if !rest.isEmpty && rest.all (·.isDigit) then some (-(natOfDigits rest : Int))
    else none
  | l => if l.all (·.isDigit) then some (natOfDigits l : Int) else none

/-! ## `get_value_from_dict` (source lines 116-149) -/

/-- One subscript step `v[k]` of the walk in `get_value_from_dict`, after the
`int(k)` conversion attempt.  Mirrors Python subscript semantics: an integer
subscript indexes lists and strings (negative indices count from the end) and
raises `KeyError` on string-keyed dicts; a string subscript looks up dict keys
and raises `TypeError` on everything else.  Every raised
`TypeError`/`KeyError`/`IndexError` is caught by the source and yields
`none`. -/
def indexValue (v : Value) (k : String) : Option Value :=
  match segToInt? k with
  | some i =>
    match v with
    | .vlist l =>
      let j : Int := if i < 0 then i + l.length else i
      if h : 0 ≤ j ∧ j.toNat < l.length then some (l.get ⟨j.toNat, h.2⟩) else none
    | .vstr s =>
      let j : Int := if i < 0 then i + s.data.length else i
      if h : 0 ≤ j ∧ j.toNat < s.data.length then
        some (.vstr (String.mk [s.data.get ⟨j.toNat, h.2⟩]))
      else none
    | _ => none
  | none =>
    match v with
    | .vdict d => lookupE d k
    | _ => none
where
  /-- First-occurrence association-list lookup (Python dict indexing). -/
  lookupE : List (String × Value) → String → Option Value
    | [], _ => none
    | (k, v) :: rest, key => if k == key then some v else lookupE rest key

export indexValue (lookupE)

/-- The inner loop of `get_value_from_dict` for a single dotted path: walk the
segments; any failing subscript sets the running value to `''` and breaks. -/
def getValueSingle (d : Value) (path : String) : Value :=
  go d (splitDots path)
where
  go : Value → List String → Value
    | v, [] => v
    | v, k :: rest =>
      match indexValue v k with
      | some v' => go v' rest
      | none => .vstr ""

/-- `get_value_from_dict(dct, xkeys_list)`: split the candidate list on
whitespace; return the first candidate whose walked value is truthy; return
nothing (`None`) otherwise. -/
def get_value_from_dict (d : Value) (xkeys_list : String) : Option Value :=
  go (pySplitWs xkeys_list)
where
  go : List String → Option Value
    | [] => none
    | k :: rest =>
      let v := getValueSingle d k
      if truthy v then some v else go rest

/-! ## `put_value_into_dict` (source lines 152-180)

The source builds the JSON text `{"k1": {"k2": ... {"kn": X } ... }}` —
splicing *both* the dotted path segments and the value in raw — and parses it
back with `json.loads(_, strict=False)`.  For a dict value, `X` is
`json.dumps(v)` (properly escaped, so the parse recovers `v` itself); for a
scalar value, `X` is `"{str(v)}"`, so the parse yields the JSON-string
*decoding* of the scalar's string form.  Each raw splice sits between double
quotes of a JSON string literal, so:

* a raw `"` in a segment or scalar text terminates the literal early and the
  text is unparseable (`JSONDecodeError`);
* a raw `\` starts a JSON escape: a valid escape is silently decoded to a
  different character, an invalid one is again a `JSONDecodeError`;
* with `strict=False`, raw control characters pass through verbatim.

`jsonStringDecode?` embeds exactly this decoding.  On `JSONDecodeError` the
source retries with the fixed sentinel `'DROPPED'`: when only the *value*
text was at fault the retry succeeds, but when a *segment* is at fault the
retry rebuilds the same unparseable text and recurses without bound until
`RecursionError` — modelled as `none`.  (`\uXXXX` escapes, which Python
decodes, are mapped to `none` here: a stated modelling boundary; no
configured path or claim input contains a backslash at all.  Python `repr`
of list values is likewise not modelled; no claim evaluates
`put_value_into_dict` on a list.) -/

/-- Decode a raw character sequence as the body of a JSON string literal
under `strict=False`: a raw `"` would terminate the literal early (`none`);
`\` begins an escape (`\" \\ \/ \b \f \n \r \t` decoded, anything else —
including the unmodelled `\uXXXX` — `none`); all other characters, control
characters included, pass through verbatim. -/
def jsonStringDecode? : List Char → Option (List Char)
  | [] => some []
  | c :: t =>
    if c == '"' then none
    else if c == '\\' then
      match t with
      | e :: t' =>
        if e == '"' then (jsonStringDecode? t').map (fun r => '"' :: r)
        else if e == '\\' then (jsonStringDecode? t').map (fun r => '\\' :: r)
        else if e == '/' then (jsonStringDecode? t').map (fun r => '/' :: r)
        else if e == 'b' then (jsonStringDecode? t').map (fun r => Char.ofNat 8 :: r)
        else if e == 'f' then (jsonStringDecode? t').map (fun r => Char.ofNat 12 :: r)
        else if e == 'n' then (jsonStringDecode? t').map (fun r => '\n' :: r)
        else if e == 'r' then (jsonStringDecode? t').map (fun r => '\r' :: r)
        else if e == 't' then (jsonStringDecode? t').map (fun r => '\t' :: r)
        else none
      | [] => none
    else (jsonStringDecode? t).map (fun r => c :: r)

/-- Decimal string form of an integer (Python `str(int)`). -/
def intStr (n : Int) : String :=
  if n < 0 then "-" ++ String.mk (Nat.toDigits 10 n.natAbs)
  else String.mk (Nat.toDigits 10 n.toNat)

/-- Python `str(v)` for the scalar values `put_value_into_dict` embeds. -/
def scalarStr : Value → String
  | .vstr s => s
  | .vint n => intStr n
  | .vbool b => if b then "True" else "False"
  | .vdict _ => ""
  | .vlist _ => ""

/-- `put_value_into_dict(key_str, v)`: nested singleton dicts keyed by the
JSON-decoded dotted path segments.  `none` models the `RecursionError` of an
undecodable segment (the `DROPPED` fallback re-fails forever).  With decodable
segments: a dict value is embedded as-is (via `json.dumps`); a scalar's
string form is JSON-decoded, falling back to the sentinel `'DROPPED'` — the
terminating retry — when that decoding fails. -/
def put_value_into_dict (key_str : String) (v : Value) : Option Value :=
  match decodeSegs (splitDots key_str) with
  | none => none
  | some keys =>
    match v with
    | .vdict d => some (build keys (.vdict d))
    | w =>
      match jsonStringDecode? (scalarStr w).data with
      | some decoded => some (build keys (.vstr (String.mk decoded)))
      | none => some (build keys (.vstr "DROPPED"))
where
  decodeSegs : List String → Option (List String)
    | [] => some []
    | k :: rest =>
      match jsonStringDecode? k.data, decodeSegs rest with
      | some d, some ds => some (String.mk d :: ds)
      | _, _ => none
  build : List String → Value → Value
    | [], leaf => leaf
    | [k], leaf => .vdict [(k, leaf)]
    | k :: rest, leaf => .vdict [(k, build rest leaf)]

/-- First-occurrence in-place update of an association list (Python dict
assignment `a[key] = v` to an existing key keeps its position). -/
def updateE : List (String × Value) → String → Value → List (String × Value)
  | [], _, _ => []
  | (k, v) :: rest, key, nv =>
    if k == key then (k, nv) :: rest else (k, v) :: updateE rest key nv

/-- `merge(a, b)`: merges `b` into `a`.  For each key of `b` in insertion
order: recurse when both sides hold dicts; keep `a`'s value when the two are
equal; otherwise assign `b`'s value.  (The source distinguishes a
`str(a[key]) in str(b[key])` case from the general conflict case, but both
branches perform the same assignment `a[key] = b[key]`, so they are one
branch here.)  A fresh key is appended at the end, matching dict insertion
order. -/
def mergeV (a : Value) : Value → Value
  | .vdict bd =>
    match a with
    | .vdict ad => .vdict (mergeV.entries ad bd)
    | _ => a
  | _ => a
where
  entries : List (String × Value) → List (String × Value) → List (String × Value)
    | acc, [] => acc
    | acc, (key, bv) :: rest =>
      mergeV.entries
        (match lookupE acc key with
         | some av =>
           match av, bv with
           | .vdict _, .vdict _ => updateE acc key (mergeV av bv)
           | _, _ => if av = bv then acc else updateE acc key bv
         | none => acc ++ [(key, bv)]) rest

/-- The body of one iteration of the `for key in b` loop of `merge`. -/
def mergeStep (acc : List (String × Value)) (key : String) (bv : Value) :
    List (String × Value) :=
  match lookupE acc key with
  | some av =>
    match av, bv with
    | .vdict _, .vdict _ => updateE acc key (mergeV av bv)
    | _, _ => if av = bv then acc else updateE acc key bv
  | none => acc ++ [(key, bv)]

/-! ## `del_none` and the `json` property (source lines 745-759) -/

/-- `del_none(d)`: one cleanup pass over a document.  Deletes keys whose value
is an empty dict or one of the sentinel strings `''`, `'-'`, `'null'`;
recurses into non-empty dict values (without re-checking them for emptiness
afterwards).  List values are not traversed. -/
def del_noneV : Value → Value
  | .vdict d => .vdict (del_noneV.entries d)
  | v => v
where
  entries : List (String × Value) → List (String × Value)
    | [] => []
    | (k, v) :: rest =>
      match v with
      | .vdict d =>
        if d.isEmpty then del_noneV.entries rest
        else (k, del_noneV v) :: del_noneV.entries rest
      | .vstr s =>
        if s == "" || s == "-" || s == "null" then del_noneV.entries rest
        else (k, v) :: del_noneV.entries rest
      | _ => (k, v) :: del_noneV.entries rest

/-- The cleanup performed by the `json` property:
`self.del_none(self.del_none(self.__logdata_dict))`. -/
def jsonCleanup (d : List (String × Value)) : List (String × Value) :=
  del_noneV.entries (del_noneV.entries d)

/-- Does a value contain, at any depth, a nested map that is empty? -/
def hasEmptyMap : Value → Bool
  | .vdict d => d.isEmpty || hasEmptyMap.entries d
  | .vlist l => hasEmptyMap.values l
  | _ => false
where
  entries : List (String × Value) → Bool
    | [] => false
    | (_, v) :: rest => hasEmptyMap v || hasEmptyMap.entries rest
  values : List Value → Bool
    | [] => false
    | v :: rest => hasEmptyMap v || hasEmptyMap.values rest

/-- Well-formedness of a value as a Python object: every dict reachable
through dict values has pairwise-distinct keys.  (Python dicts cannot hold a
key twice; association lists can, so merge theorems assume this invariant.
Dicts nested inside lists are never recursed into by `merge` and need no
constraint.) -/
def wfV : Value → Bool
  | .vdict d => wfV.entries d
  | _ => true
where
  entries : List (String × Value) → Bool
    | [] => true
    | (k, v) :: rest =>
      rest.all (fun p => !(p.1 == k)) && wfV v && wfV.entries rest

/-! ## Claim C1 — cleanup stage invariant -/

/-- C1: the claim states that after the cleanup of the `json` property
(`del_none` applied twice) the document contains no empty nested map and no
sentinel scalar leaf, for arbitrary nesting depth.  The code violates this:
each `del_none` pass checks a dict value for emptiness *before* recursing
into it, so a deletion cascade across three levels survives both passes.  On
the input `{"a": {"b": {"c": ""}}}` the double pass yields `{"a": {}}`, which
still contains an empty nested map. -/
theorem c1_cleanup_leaves_empty_map :
    jsonCleanup [("a", .vdict [("b", .vdict [("c", .vstr "")])])]
      = [("a", .vdict [])]
  ∧ hasEmptyMap (.vdict (jsonCleanup
      [("a", .vdict [("b", .vdict [("c", .vstr "")])])])) = true := by
  decide

/-! ## Claim C10 — `get_value_from_dict` first-truthy semantics -/

lemma getValue_go_eq (d : Value) :
    ∀ ks : List String,
      get_value_from_dict.go d ks = (ks.map (getValueSingle d)).find? truthy := by
  intro ks
  induction ks with
  | nil => rfl
  | cons k rest ih =>
    simp only [get_value_from_dict.go, List.map_cons]
    by_cases h : truthy (getValueSingle d k)
    · simp [h, List.find?_cons_of_pos]
    · simp only [h, if_neg, Bool.false_eq_true, ite_false]
      rw [List.find?_cons_of_neg _ (by simpa using h)]
      exact ih

/-- C10: `get_value_from_dict` returns the value of the first candidate path
whose resolved value is truthy; a present-but-falsy value (`0`, `False`, an
empty list, an empty map, an empty string) is skipped exactly like a missing
key, and the lookup returns nothing when every candidate resolves to a falsy
value. -/
theorem c10_get_value_first_truthy :
    (∀ (d : Value) (keys : String),
        get_value_from_dict d keys
          = ((pySplitWs keys).map (getValueSingle d)).find? truthy)
  ∧ get_value_from_dict (.vdict [("a", .vint 0), ("z", .vint 5)]) "a z"
      = some (.vint 5)
  ∧ get_value_from_dict (.vdict [("a", .vint 0), ("b", .vbool false),
      ("c", .vlist []), ("d", .vdict []), ("e", .vstr "")]) "a b c d e"
      = none := by
  refine ⟨fun d keys => ?_, by decide, by decide⟩
  exact getValue_go_eq d (pySplitWs keys)

/-! ## Claim C3 — put/get round trip -/

/-- `AbsP av bv`: merging `bv` onto an existing `av` changes nothing — for a
dict/dict pair the recursive merge is a fixpoint, otherwise the values are
equal (and not both dicts). -/
inductive AbsP : Value → Value → Prop where
  | dict {ad bd : List (String × Value)} :
      mergeV.entries ad bd = ad → AbsP (.vdict ad) (.vdict bd)
  | eq {av bv : Value} :
      av = bv → (∀ d, ¬ av = Value.vdict d) → AbsP av bv

/-- The value found at `key` after one merge step, as a function of what was
there before. -/
def stepVal : Option Value → Value → Value
  | some av, bv =>
    match av, bv with
    | .vdict _, .vdict _ => mergeV av bv
    | _, _ => if av = bv then av else bv
  | none, bv => bv

lemma mergeE_cons (acc : List (String × Value)) (key : String) (bv : Value)
    (rest : List (String × Value)) :
    mergeV.entries acc ((key, bv) :: rest)
      = mergeV.entries (mergeStep acc key bv) rest := rfl

lemma lookupE_update_self {l : List (String × Value)} {k : String} {w : Value}
    (h : lookupE l k = some w) (v : Value) :
    lookupE (updateE l k v) k = some v := by
  induction l with
  | nil => simp [lookupE] at h
  | cons p rest ih =>
    obtain ⟨k0, v0⟩ := p
    by_cases hk : k0 = k
    · simp [lookupE, updateE, hk]
    · simp only [lookupE, updateE, beq_iff_eq, hk, if_false] at h ⊢
      exact ih h

lemma updateE_self {l : List (String × Value)} {k : String} {v : Value}
    (h : lookupE l k = some v) :
    updateE l k v = l := by
  induction l with
  | nil => simp [lookupE] at h
  | cons p rest ih =>
    obtain ⟨k0, v0⟩ := p
    by_cases hk : k0 = k
    · simp only [lookupE, beq_iff_eq, hk, if_true, Option.some.injEq] at h
      simp [updateE, hk, h]
    · simp only [lookupE, beq_iff_eq, hk, if_false] at h
      simp [updateE, hk, ih h]

lemma lookupE_update_ne {l : List (String × Value)} {k k' : String}
    (hne : ¬ k = k') (v : Value) :
    lookupE (updateE l k' v) k = lookupE l k := by
  have hne' : ¬ k' = k := fun hc => hne hc.symm
  induction l with
  | nil => simp [lookupE, updateE]
  | cons p rest ih =>
    obtain ⟨k0, v0⟩ := p
    by_cases hk : k0 = k'
    · have : ¬ k0 = k := by rw [hk]; exact hne'
      simp [lookupE, updateE, hk, this, hne']
    · by_cases hk2 : k0 = k
      · simp [lookupE, updateE, hk, hk2, hne, hne']
      · simp [lookupE, updateE, hk, hk2, ih]

lemma lookupE_append_some {l : List (String × Value)} {k : String} {w : Value}
    (h : lookupE l k = some w) (l' : List (String × Value)) :
    lookupE (l ++ l') k = some w := by
  induction l with
  | nil => simp [lookupE] at h
  | cons p rest ih =>
    obtain ⟨k0, v0⟩ := p
    by_cases hk : k0 = k
    · simp only [lookupE, beq_iff_eq, hk, if_true] at h
      simp [lookupE, hk, h]
    · simp only [lookupE, beq_iff_eq, hk, if_false] at h ⊢
      exact ih h

lemma lookupE_append_none {l : List (String × Value)} {k : String}
    (h : lookupE l k = none) (l' : List (String × Value)) :
    lookupE (l ++ l') k = lookupE l' k := by
  induction l with
  | nil => simp
  | cons p rest ih =>
    obtain ⟨k0, v0⟩ := p
    by_cases hk : k0 = k
    · simp [lookupE, hk] at h
    · simp only [lookupE, beq_iff_eq, hk, if_false] at h ⊢
      exact ih h

lemma mergeStep_lookup_ne (acc : List (String × Value)) (key : String)
    (bv : Value) {k : String} (hne : ¬ k = key) :
    lookupE (mergeStep acc key bv) k = lookupE acc k := by
  unfold mergeStep
  cases h : lookupE acc key with
  | none =>
    have hne' : ¬ key = k := fun hc => hne hc.symm
    cases h2 : lookupE acc k with
    | none =>
      rw [lookupE_append_none h2]
      simp [lookupE, hne']
    | some w => rw [lookupE_append_some h2]
  | some av =>
    cases av <;> cases bv <;>
      first
      | exact lookupE_update_ne hne _
      | (dsimp only []; split
         · rfl
         · exact lookupE_update_ne hne _)

lemma mergeStep_lookup_self (acc : List (String × Value)) (key : String)
    (bv : Value) :
    lookupE (mergeStep acc key bv) key = some (stepVal (lookupE acc key) bv) := by
  unfold mergeStep
  cases h : lookupE acc key with
  | none =>
    rw [lookupE_append_none h]
    simp [lookupE, stepVal]
  | some av =>
    cases av <;> cases bv <;>
      first
      | (simp only [stepVal]; exact lookupE_update_self h _)
      | (dsimp only [stepVal]; split
         · simpa [*] using h
         · exact lookupE_update_self h _)

lemma mergeE_lookup_disjoint {b : List (String × Value)} {k : String}
    (hd : ∀ p ∈ b, ¬ p.1 = k) :
    ∀ acc, lookupE (mergeV.entries acc b) k = lookupE acc k := by
  induction b with
  | nil => intro acc; rfl
  | cons p rest ih =>
    intro acc
    obtain ⟨key, bv⟩ := p
    rw [mergeE_cons]
    rw [ih (fun q hq => hd q (by simp [hq]))]
    exact mergeStep_lookup_ne acc key bv
      (fun hc => hd (key, bv) (by simp) (by simp [hc]))

lemma mergeE_append_assoc (b2 : List (String × Value)) :
    ∀ (b1 : List (String × Value)) (acc : List (String × Value)),
      mergeV.entries acc (b1 ++ b2)
        = mergeV.entries (mergeV.entries acc b1) b2 := by
  intro b1
  induction b1 with
  | nil => intro acc; rfl
  | cons p rest ih =>
    intro acc
    obtain ⟨key, bv⟩ := p
    rw [List.cons_append, mergeE_cons, mergeE_cons]
    exact ih (mergeStep acc key bv)

lemma step_absorb {acc : List (String × Value)} {key : String} {av bv : Value}
    (h : lookupE acc key = some av) (habs : AbsP av bv) :
    mergeStep acc key bv = acc := by
  cases habs with
  | dict hfix =>
    rename_i ad bd
    unfold mergeStep
    rw [h]
    show updateE acc key (mergeV (Value.vdict ad) (Value.vdict bd)) = acc
    have hmv : mergeV (Value.vdict ad) (Value.vdict bd)
        = Value.vdict (mergeV.entries ad bd) := rfl
    rw [hmv, hfix]
    exact updateE_self h
  | eq heq hnd =>
    subst heq
    unfold mergeStep
    rw [h]
    cases av with
    | vdict ad => exact absurd rfl (hnd ad)
    | vstr s => simp
    | vint n => simp
    | vbool x => simp
    | vlist l => simp

lemma merge_absorb :
    ∀ (b acc : List (String × Value)),
      (∀ p ∈ b, ∃ av, lookupE acc p.1 = some av ∧ AbsP av p.2) →
      mergeV.entries acc b = acc := by
  intro b
  induction b with
  | nil => intro acc _; rfl
  | cons p rest ih =>
    intro acc habs
    obtain ⟨key, bv⟩ := p
    obtain ⟨av, hl, ha⟩ := habs (key, bv) (by simp)
    rw [mergeE_cons, step_absorb hl ha]
    exact ih acc (fun q hq => habs q (by simp [hq]))

lemma lookup_self_of_wf {d : List (String × Value)} {k : String} {v : Value}
    (hwf : wfV.entries d = true) (hm : (k, v) ∈ d) :
    lookupE d k = some v := by
  induction d with
  | nil => simp at hm
  | cons p rest ih =>
    obtain ⟨k0, v0⟩ := p
    simp only [wfV.entries, Bool.and_eq_true, List.all_eq_true] at hwf
    rcases List.mem_cons.mp hm with h | h
    · cases h
      simp [lookupE]
    · have hne : ¬ k0 = k := by
        have := hwf.1.1 (k, v) h
        simp at this
        intro hc; exact this hc.symm
      simp only [lookupE, beq_iff_eq, hne, if_false]
      exact ih hwf.2 h

lemma wf_mem {d : List (String × Value)} {p : String × Value}
    (hwf : wfV.entries d = true) (hm : p ∈ d) :
    wfV p.2 = true := by
  induction d with
  | nil => simp at hm
  | cons q rest ih =>
    obtain ⟨k0, v0⟩ := q
    simp only [wfV.entries, Bool.and_eq_true] at hwf
    rcases List.mem_cons.mp hm with h | h
    · rw [h]; exact hwf.1.2
    · exact ih hwf.2 h

lemma wf_append_mid {pre post : List (String × Value)} {k : String} {bv : Value}
    (hwf : wfV.entries (pre ++ (k, bv) :: post) = true) :
    ∀ p ∈ post, ¬ p.1 = k := by
  induction pre with
  | nil =>
    simp only [List.nil_append, wfV.entries, Bool.and_eq_true,
      List.all_eq_true] at hwf
    intro p hp
    have := hwf.1.1 p hp
    simpa using this
  | cons q rest ih =>
    obtain ⟨k0, v0⟩ := q
    simp only [List.cons_append, wfV.entries, Bool.and_eq_true] at hwf
    exact ih hwf.2

lemma mergeE_self :
    ∀ (n : Nat) (d : List (String × Value)), sizeOf d ≤ n →
      wfV.entries d = true → mergeV.entries d d = d := by
  intro n
  induction n with
  | zero =>
    intro d h
    cases d <;> simp at h
  | succ n ih =>
    intro d hsz hwf
    apply merge_absorb
    intro p hp
    obtain ⟨k, v⟩ := p
    refine ⟨v, lookup_self_of_wf hwf hp, ?_⟩
    have hwfv : wfV v = true := wf_mem hwf hp
    cases v with
    | vdict vd =>
      have hlt := List.sizeOf_lt_of_mem hp
      have hle : sizeOf vd ≤ n := by
        simp only [Prod.mk.sizeOf_spec, Value.vdict.sizeOf_spec] at hlt
        omega
      exact AbsP.dict (ih vd hle (by simpa [wfV] using hwfv))
    | vstr s => exact AbsP.eq rfl (fun d h => Value.noConfusion h)
    | vint m => exact AbsP.eq rfl (fun d h => Value.noConfusion h)
    | vbool x => exact AbsP.eq rfl (fun d h => Value.noConfusion h)
    | vlist l => exact AbsP.eq rfl (fun d h => Value.noConfusion h)

lemma absp_self {bv : Value} (hwf : wfV bv = true) : AbsP bv bv := by
  cases bv with
  | vdict bd =>
    exact AbsP.dict (mergeE_self (sizeOf bd) bd le_rfl (by simpa [wfV] using hwf))
  | vstr s => exact AbsP.eq rfl (fun d h => Value.noConfusion h)
  | vint n => exact AbsP.eq rfl (fun d h => Value.noConfusion h)
  | vbool x => exact AbsP.eq rfl (fun d h => Value.noConfusion h)
  | vlist l => exact AbsP.eq rfl (fun d h => Value.noConfusion h)

lemma stepVal_some_cases (av bv : Value) :
    (∃ ad bd, av = Value.vdict ad ∧ bv = Value.vdict bd)
      ∨ stepVal (some av) bv = bv := by
  cases av <;> cases bv <;>
    first
    | (left; exact ⟨_, _, rfl, rfl⟩)
    | (right; dsimp only [stepVal]; split <;> simp_all)

lemma c4_aux :
    ∀ (n : Nat) (b : List (String × Value)), sizeOf b ≤ n →
      wfV.entries b = true →
      ∀ a, mergeV.entries (mergeV.entries a b) b = mergeV.entries a b := by
  intro n
  induction n with
  | zero =>
    intro b h
    cases b <;> simp at h
  | succ n ih =>
    intro b hsz hwf a
    apply merge_absorb
    intro p hp
    obtain ⟨k, bv⟩ := p
    obtain ⟨pre, post, hb⟩ := List.append_of_mem hp
    have hpost : ∀ q ∈ post, ¬ q.1 = k := wf_append_mid (hb ▸ hwf)
    have hm : mergeV.entries a b
        = mergeV.entries (mergeStep (mergeV.entries a pre) k bv) post := by
      rw [hb, mergeE_append_assoc, mergeE_cons]
    have hlook : lookupE (mergeV.entries a b) k
        = some (stepVal (lookupE (mergeV.entries a pre) k) bv) := by
      rw [hm, mergeE_lookup_disjoint hpost]
      exact mergeStep_lookup_self _ k bv
    refine ⟨_, hlook, ?_⟩
    have hwfbv : wfV bv = true := wf_mem hwf hp
    cases hopt : lookupE (mergeV.entries a pre) k with
    | none => exact absp_self hwfbv
    | some av =>
      rcases stepVal_some_cases av bv with ⟨ad, bd, had, hbd⟩ | heq
      · subst had; subst hbd
        show AbsP (stepVal (some (Value.vdict ad)) (Value.vdict bd))
          (Value.vdict bd)
        have hstep : stepVal (some (Value.vdict ad)) (Value.vdict bd)
            = Value.vdict (mergeV.entries ad bd) := rfl
        rw [hstep]
        have hlt := List.sizeOf_lt_of_mem hp
        have hbd_sz : sizeOf bd ≤ n := by
          simp only [Prod.mk.sizeOf_spec, Value.vdict.sizeOf_spec] at hlt
          omega
        exact AbsP.dict (ih bd hbd_sz (by simpa [wfV] using hwfbv) ad)
      · show AbsP (stepVal (some av) bv) (k, bv).2
        rw [heq]
        exact absp_self hwfbv

/-- C4: re-applying the merge of `b` is idempotent:
`merge(merge(a, b), b) = merge(a, b)` for all nested string-keyed maps `a`
and `b` (`wfV.entries b` states that `b` is a genuine Python dict tree: no
association list reachable through dict values repeats a key). -/
theorem c4_merge_reapply_idem (a b : List (String × Value))
    (hwf : wfV.entries b = true) :
    mergeV.entries (mergeV.entries a b) b = mergeV.entries a b :=
  c4_aux (sizeOf b) b le_rfl hwf a

/-- Witness for C4 at concrete nested maps exercising the dict/dict, equal
and conflict branches. -/
theorem c4_merge_reapply_idem_witness :
    wfV.entries [("x", Value.vdict [("u", .vint 1), ("w", .vstr "s")]),
      ("y", .vint 7)] = true
  ∧ mergeV.entries
      (mergeV.entries [("x", Value.vdict [("u", .vint 2)]), ("z", .vbool true)]
        [("x", Value.vdict [("u", .vint 1), ("w", .vstr "s")]), ("y", .vint 7)])
      [("x", Value.vdict [("u", .vint 1), ("w", .vstr "s")]), ("y", .vint 7)]
    = mergeV.entries [("x", Value.vdict [("u", .vint 2)]), ("z", .vbool true)]
        [("x", Value.vdict [("u", .vint 1), ("w", .vstr "s")]), ("y", .vint 7)] :=
  ⟨by decide, c4_merge_reapply_idem _ _ (by decide)⟩

/-! ## `get_mime` and `LogS3.rawdata` (source lines 101-113, 293-314) -/

/-- Byte-list prefix test (Python `bytes.startswith`). -/
def bytesPrefix : List Nat → List Nat → Bool
  | [], _ => true
  | _ :: _, [] => false
  | b :: bs, d :: ds => b == d && bytesPrefix bs ds

/-- Membership in the `textchars` set of `get_mime`:
`{7, 8, 9, 10, 12, 13, 27} | set(range(0x20, 0x100)) - {0x7f}`. -/
def isTextByte (b : Nat) : Bool :=
  b == 7 || b == 8 || b == 9 || b == 10 || b == 12 || b == 13 || b == 27 ||
    (32 ≤ b && b ≤ 255 && !(b == 127))

/-- `get_mime(data)`: magic-byte sniffing for gzip/zip/bzip2; otherwise
`'binary'` when any byte falls outside `textchars` (the
`data.translate(None, textchars)` residue is non-empty), else `'text'`. -/
def get_mime (data : List Nat) : String :=
  if bytesPrefix [0x1f, 0x8b] data then "gzip"
  else if bytesPrefix [0x50, 0x4b] data then "zip"
  else if bytesPrefix [0x42, 0x5a] data then "bzip2"
  else if data.all isTextByte then "text"
  else "binary"

/-- How `LogS3.rawdata` decides to decode the body. -/
inductive BodyKind where
  | gzip | zip | bzip2 | plainText
deriving DecidableEq, Repr

/-- The dispatch of `LogS3.rawdata`: `get_mime` is applied to the first 16
bytes (`rawbody.read(16)`), then the body is opened as gzip / text / zip /
bzip2 in that order, and anything else ­— i.e. `get_mime`'s `'binary'`
verdict — raises `Exception('unknown file format')`.  The decompression
itself is I/O and is not modelled; only the classification outcome is. -/
def rawdataKind (data : List Nat) : Except String BodyKind :=
  let mime := get_mime (data.take 16)
  if mime == "gzip" then .ok .gzip
  else if mime == "text" then .ok .plainText
  else if mime == "zip" then .ok .zip
  else if mime == "bzip2" then .ok .bzip2
  else .error "unknown file format"

/-- Python `readlines`: split on newlines, each line keeping its trailing
newline, with no empty final line for a trailing-newline body. -/
def pyReadlines (s : String) : List String :=
  go ((splitOnCharAux '\n' [] s.data).map String.mk)
where
  go : List String → List String
    | [] => []
    | [last] => if last == "" then [] else [last]
    | l :: rest => (l ++ "\n") :: go rest

/-- The `text` branch of `LogS3.logdata_list`: skip the configured number of
header lines, yield the remaining lines stripped — a total function on any
decoded text. -/
def logdata_list_text (body : String) (header_line_number : Nat) : List String :=
  ((pyReadlines body).drop header_line_number).map pyStrip

/-! ## Claim C9 — non-magic bodies as plain text -/

/-- C9 counterexample: a body whose first bytes match none of the magics is
*not* always treated as plain text: a leading NUL byte is outside
`textchars`, `get_mime` answers `'binary'`, and `rawdata` raises
`'unknown file format'`, aborting the batch. -/
theorem c9_nonmagic_not_always_text :
    get_mime [0] = "binary"
  ∧ rawdataKind [0] = .error "unknown file format" :=
  ⟨rfl, rfl⟩

/-- C9 amended: a batch whose first 16 bytes match none of the gzip/zip/bzip2
magics *and* consist solely of `textchars` bytes (bell/backspace/tab/\n/\f/\r/
escape and 0x20-0xff except 0x7f) is classified `'text'` and decoded as plain
text without raising; bodies with any other byte among the first 16 are
classified `'binary'` and abort the batch with an exception. -/
theorem c9_text_when_textchars (data : List Nat)
    (hg : bytesPrefix [0x1f, 0x8b] (data.take 16) = false)
    (hz : bytesPrefix [0x50, 0x4b] (data.take 16) = false)
    (hb : bytesPrefix [0x42, 0x5a] (data.take 16) = false)
    (ht : (data.take 16).all isTextByte = true) :
    get_mime (data.take 16) = "text"
  ∧ rawdataKind data = .ok .plainText := by
  have hmime : get_mime (data.take 16) = "text" := by
    unfold get_mime
    rw [hg, hz, hb, ht]
    simp
  refine ⟨hmime, ?_⟩
  unfold rawdataKind
  rw [hmime]
  simp

/-- Witness for C9 amended on a concrete ASCII body. -/
theorem c9_text_when_textchars_witness :
    get_mime (([104, 101, 108, 108, 111, 10, 119, 111, 114, 108, 100] :
        List Nat).take 16) = "text"
  ∧ rawdataKind [104, 101, 108, 108, 111, 10, 119, 111, 114, 108, 100]
      = .ok .plainText :=
  c9_text_when_textchars _ (by decide) (by decide) (by decide) (by decide)

/-! ## Timestamps (source lines 27-32, 633-714)

Aware Python `datetime` values are modelled by explicit calendar fields plus
a fixed-offset timezone in seconds.  Instant comparison and timezone
conversion go through the proleptic-Gregorian day number (the standard
civil-from-days / days-from-civil algorithms, written with floor division). -/

/-- A timezone-aware Python `datetime` with a fixed offset of `tzSec`
seconds (`timezone(timedelta(hours=...))`). -/
structure PyDateTime where
  year : Int
  month : Nat
  day : Nat
  hour : Nat
  minute : Nat
  second : Nat
  microsecond : Nat
  tzSec : Int
deriving DecidableEq, Repr

/-- Gregorian leap year. -/
def isLeap (y : Int) : Bool :=
  (y % 4 == 0 && !(y % 100 == 0)) || y % 400 == 0

/-- Number of days in a month. -/
def daysInMonth (y : Int) (m : Nat) : Nat :=
  if m == 1 then 31
  else if m == 2 then (if isLeap y then 29 else 28)
  else if m == 3 then 31
  else if m == 4 then 30
  else if m == 5 then 31
  else if m == 6 then 30
  else if m == 7 then 31
  else if m == 8 then 31
  else if m == 9 then 30
  else if m == 10 then 31
  else if m == 11 then 30
  else if m == 12 then 31
  else 0

/-- The `datetime(...)` constructor: `none` models the `ValueError` raised on
an out-of-range field (e.g. Feb 29 of a non-leap year). -/
def mkDatetime? (y : Int) (mo d h mi s us : Nat) (tzSec : Int) :
    Option PyDateTime :=
  if 1 ≤ y ∧ y ≤ 9999 ∧ 1 ≤ mo ∧ mo ≤ 12 ∧ 1 ≤ d ∧ d ≤ daysInMonth y mo
      ∧ h ≤ 23 ∧ mi ≤ 59 ∧ s ≤ 59 ∧ us ≤ 999999 then
    some ⟨y, mo, d, h, mi, s, us, tzSec⟩
  else none

/-- Day number of a civil date, with day 0 = 1970-01-01 (proleptic
Gregorian). -/
def daysFromCivil (y : Int) (m d : Nat) : Int :=
  let y' : Int := if m ≤ 2 then y - 1 else y
  let era : Int := Int.fdiv y' 400
  let yoe : Int := y' - era * 400
  let mp : Int := if m > 2 then (m : Int) - 3 else (m : Int) + 9
  let doy : Int := Int.fdiv (153 * mp + 2) 5 + (d : Int) - 1
  let doe : Int := yoe * 365 + Int.fdiv yoe 4 - Int.fdiv yoe 100 + doy
  era * 146097 + doe - 719468

/-- The instant of an aware datetime, as microseconds since the epoch
(aware-datetime comparison in Python compares these). -/
def totalMicro (dt : PyDateTime) : Int :=
  (daysFromCivil dt.year dt.month dt.day * 86400
      + (dt.hour : Int) * 3600 + (dt.minute : Int) * 60 + (dt.second : Int)
      - dt.tzSec) * 1000000 + (dt.microsecond : Int)

/-- Civil date of a day number (inverse of `daysFromCivil`). -/
def civilFromDays (z0 : Int) : Int × Nat × Nat :=
  let z := z0 + 719468
  let era := Int.fdiv z 146097
  let doe := z - era * 146097
  let yoe := Int.fdiv
    (doe - Int.fdiv doe 1460 + Int.fdiv doe 36524 - Int.fdiv doe 146096) 365
  let y := yoe + era * 400
  let doy := doe - (365 * yoe + Int.fdiv yoe 4 - Int.fdiv yoe 100)
  let mp := Int.fdiv (5 * doy + 2) 153
  let d := doy - Int.fdiv (153 * mp + 2) 5 + 1
  let m := if mp < 10 then mp + 3 else mp - 9
  (if m ≤ 2 then y + 1 else y, m.toNat, d.toNat)

/-- `datetime.fromtimestamp(t, tz)` generalised to a microsecond count:
convert an epoch instant to the civil fields of the given fixed offset. -/
def fromEpochMicro (us : Int) (tzSec : Int) : PyDateTime :=
  let t := us + tzSec * 1000000
  let sec := Int.fdiv t 1000000
  let micro := (t - sec * 1000000).toNat
  let days := Int.fdiv sec 86400
  let rem := (sec - days * 86400).toNat
  let c := civilFromDays days
  ⟨c.1, c.2.1, c.2.2, rem / 3600, rem % 3600 / 60, rem % 60, micro, tzSec⟩

/-- `dt.astimezone(tz)`: same instant, re-expressed at another fixed
offset. -/
def astimezone (dt : PyDateTime) (tzSec : Int) : PyDateTime :=
  fromEpochMicro (totalMicro dt) tzSec

/-! ### The `epoch` branch of `get_timestamp` (source lines 654-661) -/

/-- The `'epoch'` branch: a numeric timestamp strictly greater than
`1000000000000` is divided by 1000 (milliseconds), otherwise taken as
seconds; either way `datetime.fromtimestamp(..., tz=TZ)` applies the
configured default offset.  (The float division `epoch/1000` is modelled
exactly; double rounding for values not representable in binary64 is not.) -/
def epochResolve (e : Int) (tzSec : Int) : PyDateTime :=
  if e > 1000000000000 then fromEpochMicro (e * 1000) tzSec
  else fromEpochMicro (e * 1000000) tzSec

/-! ### The `syslog` branch of `get_timestamp` (source lines 662-690) -/

/-- The fields captured by `RE_SYSLOG_FORMAT` (month already mapped through
`MONTH_TO_INT`, fractional seconds already left-justified to
microseconds). -/
structure SyslogFields where
  month : Nat
  day : Nat
  hour : Nat
  minute : Nat
  second : Nat
  microsecond : Nat
deriving DecidableEq, Repr

def isUpperAZ (c : Char) : Bool := 'A' ≤ c && c ≤ 'Z'

def isLowerAZ (c : Char) : Bool := 'a' ≤ c && c ≤ 'z'

/-- `MONTH_TO_INT` (source lines 30-31). -/
def monthToInt (s : String) : Option Nat :=
  if s == "Jan" then some 1
  else if s == "Feb" then some 2
  else if s == "Mar" then some 3
  else if s == "Apr" then some 4
  else if s == "May" then some 5
  else if s == "Jun" then some 6
  else if s == "Jul" then some 7
  else if s == "Aug" then some 8
  else if s == "Sep" then some 9
  else if s == "Oct" then some 10
  else if s == "Nov" then some 11
  else if s == "Dec" then some 12
  else none

/-- `\s+`: at least one whitespace character, consumed greedily. -/
def skipSpaces1 : List Char → Option (List Char)
  | c :: t => if isPySpace c then some (t.dropWhile isPySpace) else none
  | [] => none

/-- `\d{2}`. -/
def parse2Digits : List Char → Option (Nat × List Char)
  | a :: b :: t =>
    if a.isDigit && b.isDigit then some (natOfDigits [a, b], t) else none
  | _ => none

/-- `\d{1,2}` followed (in the regex) by `\s+`, so the greedy two-digit take
needs no backtracking. -/
def parseDay : List Char → Option (Nat × List Char)
  | a :: b :: t =>
    if a.isDigit && b.isDigit then some (natOfDigits [a, b], t)
    else if a.isDigit then some (natOfDigits [a], b :: t)
    else none
  | [a] => if a.isDigit then some (natOfDigits [a], []) else none
  | [] => none

def expectColon : List Char → Option (List Char)
  | c :: t => if c == ':' then some t else none
  | [] => none

/-- `(\.(\d{1,6}))?` and the `ljust(6, '0')` scaling of `get_timestamp`:
microseconds from an optional fractional part; absent fraction means 0. -/
def parseFrac : List Char → Nat
  | c :: t =>
    if c == '.' then
      let ds := (t.takeWhile Char.isDigit).take 6
      if ds.isEmpty then 0 else natOfDigits ds * 10 ^ (6 - ds.length)
    else 0
  | [] => 0

/-- `RE_SYSLOG_FORMAT.match` (source lines 28-29) plus the month-name
mapping: `([A-Z][a-z]{2})\s+(\d{1,2})\s+(\d{2}):(\d{2}):(\d{2})(\.(\d{1,6}))?`
anchored at the start, trailing input ignored.  An unknown three-letter
month name raises `KeyError` in the source and is out of scope here
(`none`). -/
def parseSyslog (s : String) : Option SyslogFields := do
  match s.data with
  | c0 :: c1 :: c2 :: rest =>
    if isUpperAZ c0 && isLowerAZ c1 && isLowerAZ c2 then do
      let mon ← monthToInt (String.mk [c0, c1, c2])
      let rest ← skipSpaces1 rest
      let (day, rest) ← parseDay rest
      let rest ← skipSpaces1 rest
      let (hh, rest) ← parse2Digits rest
      let rest ← expectColon rest
      let (mm, rest) ← parse2Digits rest
      let rest ← expectColon rest
      let (ss, rest) ← parse2Digits rest
      pure ⟨mon, day, hh, mm, ss, parseFrac rest⟩
    else none
  | _ => none

/-- The candidate construction of the `syslog` branch: build the datetime in
the reference year, retrying with `year - 1` when the day does not exist in
that year (`except ValueError`); a second failure propagates (`none`). -/
def syslogCandidate (now : PyDateTime) (f : SyslogFields) (tzSec : Int) :
    Option PyDateTime :=
  match mkDatetime? now.year f.month f.day f.hour f.minute f.second
      f.microsecond tzSec with
  | some dt => some dt
  | none => mkDatetime? (now.year - 1) f.month f.day f.hour f.minute f.second
      f.microsecond tzSec

/-- The `'syslog'` branch of `get_timestamp`, given the reference instant
`now` (the caller's `datetime.now(timezone.utc) + timedelta(hours=12)`):
construct the candidate, and when the candidate is later than the reference
replace its year by `now.year - 1` (`dt.replace(year=now.year-1)`, itself a
validating construction). -/
def syslogResolve (now : PyDateTime) (f : SyslogFields) (tzSec : Int) :
    Option PyDateTime :=
  match syslogCandidate now f tzSec with
  | none => none
  | some dt =>
    if totalMicro now < totalMicro dt then
      mkDatetime? (now.year - 1) dt.month dt.day dt.hour dt.minute dt.second
        dt.microsecond tzSec
    else some dt

/-- The `syslog` branch applied to the raw field value, including the
`replace('Z', '+00:00')` preprocessing of `get_timestamp`. -/
def syslogBranch (now : PyDateTime) (timestr : String) (tzSec : Int) :
    Option PyDateTime :=
  match parseSyslog (replaceZ timestr) with
  | none => none
  | some f => syslogResolve now f tzSec

/-! ### `LogParser.indexname` (source lines 724-743) -/

/-- The per-logtype index configuration consumed by `indexname`.
`index_tz` is the parsed value of the `index_tz` option as an offset in
seconds, `none` when the option is the empty (falsy) string. -/
structure IndexConfig where
  index_name : String
  index_rotation : String
  index_time : String
  index_tz : Option Int

/-- Python `strftime` `%Y` for the years in scope (1000-9999): the plain
decimal year. -/
def fmtYear (y : Int) : String := intStr y

/-- Two-digit zero padding (`%m`, `%d`, `%W`). -/
def fmt2 (n : Nat) : String :=
  if n < 10 then "0" ++ intStr n else intStr n

/-- 1-based ordinal of the day within its year. -/
def dayOfYear (dt : PyDateTime) : Nat :=
  (daysFromCivil dt.year dt.month dt.day - daysFromCivil dt.year 1 1 + 1).toNat

/-- Weekday with Monday = 0 (1970-01-01 was a Thursday, index 3). -/
def weekdayMon0 (dt : PyDateTime) : Nat :=
  ((daysFromCivil dt.year dt.month dt.day + 3) % 7).toNat

/-- Python `strftime('%W')`: week of the year with Monday as the first day
of the week, days before the year's first Monday belonging to week 00. -/
def weekW (dt : PyDateTime) : Nat :=
  (dayOfYear dt + 6 - weekdayMon0 dt) / 7

/-- The driving timestamp of the rotation suffix: `event_ingested` when the
`index_time` option says so, else `@timestamp`; converted with `astimezone`
when an `index_tz` is configured. -/
def rotationDriver (cfg : IndexConfig) (timestamp event_ingested : PyDateTime) :
    PyDateTime :=
  let idt := if pyIn "event_ingested" cfg.index_time then event_ingested
             else timestamp
  match cfg.index_tz with
  | some tz => astimezone idt tz
  | none => idt

/-- `LogParser.indexname`: the configured base name; unchanged when the
rotation option contains `'auto'`; otherwise suffixed `-%Y-%m-%d` / `-%Y-w%W`
/ `-%Y-%m` / `-%Y` according to which of `daily`/`weekly`/`monthly` the
rotation option contains, evaluated on the driving timestamp. -/
def indexname (cfg : IndexConfig) (timestamp event_ingested : PyDateTime) :
    String :=
  let iname := cfg.index_name
  if pyIn "auto" cfg.index_rotation then iname
  else
    let idt := rotationDriver cfg timestamp event_ingested
    if pyIn "daily" cfg.index_rotation then
      iname ++ "-" ++ fmtYear idt.year ++ "-" ++ fmt2 idt.month
        ++ "-" ++ fmt2 idt.day
    else if pyIn "weekly" cfg.index_rotation then
      iname ++ "-" ++ fmtYear idt.year ++ "-w" ++ fmt2 (weekW idt)
    else if pyIn "monthly" cfg.index_rotation then
      iname ++ "-" ++ fmtYear idt.year ++ "-" ++ fmt2 idt.month
    else iname ++ "-" ++ fmtYear idt.year

/-! ### ISO week numbering, from the specification's words (used to compare
the spec's `weekly` suffix against the code's `%W`) -/

/-- ISO weekday, Monday = 1 .. Sunday = 7. -/
def isoWeekday (y : Int) (m d : Nat) : Nat :=
  ((daysFromCivil y m d + 3) % 7).toNat + 1

/-- Number of ISO weeks in a year: 53 exactly when the year starts or ends
on a Thursday. -/
def isoWeeksInYear (y : Int) : Nat :=
  if isoWeekday y 1 1 == 4 || isoWeekday y 12 31 == 4 then 53 else 52

/-- The ISO-8601 week-of-year number of a civil date.  Modelled from the
spec: `"weekly → -YYYY-wWW (ISO week-of-year, two digits)"`. -/
def isoWeekOfYear (y : Int) (m d : Nat) : Nat :=
  let w := (dayOfYear ⟨y, m, d, 0, 0, 0, 0, 0⟩ + 10 - isoWeekday y m d) / 7
  if w < 1 then isoWeeksInYear (y - 1)
  else if w > isoWeeksInYear y then 1
  else w

/-! ## Claim C7 — epoch threshold -/

lemma fromEpochMicro_tz (us tzSec : Int) :
    (fromEpochMicro us tzSec).tzSec = tzSec := rfl

/-- C7: under the `epoch` format, a numeric value strictly greater than
`10^12` is interpreted as milliseconds since the epoch and anything else as
seconds; `1700000000` and `1700000000000` resolve to the same instant
(2023-11-14T22:13:20Z), and the result carries the default timezone
offset. -/
theorem c7_epoch_threshold :
    (∀ (e tzSec : Int), e > 1000000000000 →
        epochResolve e tzSec = fromEpochMicro (e * 1000) tzSec)
  ∧ (∀ (e tzSec : Int), ¬ e > 1000000000000 →
        epochResolve e tzSec = fromEpochMicro (e * 1000000) tzSec)
  ∧ (∀ (e tzSec : Int), (epochResolve e tzSec).tzSec = tzSec)
  ∧ epochResolve 1700000000 0 = epochResolve 1700000000000 0
  ∧ epochResolve 1700000000 0 = ⟨2023, 11, 14, 22, 13, 20, 0, 0⟩ := by
  refine ⟨?_, ?_, ?_, by decide, by decide⟩
  · intro e tzSec h
    unfold epochResolve
    rw [if_pos h]
  · intro e tzSec h
    unfold epochResolve
    rw [if_neg h]
  · intro e tzSec
    unfold epochResolve
    split <;> rfl

/-- Witness for C7 at the two claimed magnitudes. -/
theorem c7_epoch_threshold_witness :
    epochResolve 1700000000000 0 = fromEpochMicro (1700000000000 * 1000) 0
  ∧ epochResolve 1700000000 0 = fromEpochMicro (1700000000 * 1000000) 0 :=
  ⟨c7_epoch_threshold.1 1700000000000 0 (by decide),
   c7_epoch_threshold.2.1 1700000000 0 (by decide)⟩

/-! ## Claim C2 — syslog year disambiguation -/

lemma mkDatetime_tz {y : Int} {mo d h mi s us : Nat} {tzSec : Int}
    {dt : PyDateTime} (hmk : mkDatetime? y mo d h mi s us tzSec = some dt) :
    dt.tzSec = tzSec := by
  unfold mkDatetime? at hmk
  split at hmk
  · injection hmk with h'
    rw [← h']
  · cases hmk

lemma syslogCandidate_tz {now : PyDateTime} {f : SyslogFields} {tzSec : Int}
    {cand : PyDateTime} (h : syslogCandidate now f tzSec = some cand) :
    cand.tzSec = tzSec := by
  unfold syslogCandidate at h
  cases hmk : mkDatetime? now.year f.month f.day f.hour f.minute f.second
      f.microsecond tzSec with
  | some dt =>
    rw [hmk] at h
    injection h with h'
    rw [← h']
    exact mkDatetime_tz hmk
  | none =>
    rw [hmk] at h
    exact mkDatetime_tz h

/-- C2: the syslog resolver builds its candidate in the reference year
(falling back to the previous year when the day does not exist there), and a
candidate strictly later than the reference instant has its year replaced by
`reference.year - 1`; every resolved instant carries the configured default
offset; and `"Dec 31 23:59:59"` against the reference 2024-01-02T00:00:00Z
resolves to 2023-12-31T23:59:59+00:00. -/
theorem c2_syslog_previous_year :
    (∀ (now : PyDateTime) (f : SyslogFields) (tzSec : Int) (cand : PyDateTime),
        syslogCandidate now f tzSec = some cand →
        syslogResolve now f tzSec =
          if totalMicro now < totalMicro cand then
            mkDatetime? (now.year - 1) cand.month cand.day cand.hour
              cand.minute cand.second cand.microsecond tzSec
          else some cand)
  ∧ (∀ (now : PyDateTime) (f : SyslogFields) (tzSec : Int) (dt : PyDateTime),
        syslogResolve now f tzSec = some dt → dt.tzSec = tzSec)
  ∧ parseSyslog "Dec 31 23:59:59" = some ⟨12, 31, 23, 59, 59, 0⟩
  ∧ syslogBranch ⟨2024, 1, 2, 0, 0, 0, 0, 0⟩ "Dec 31 23:59:59" 0
      = some ⟨2023, 12, 31, 23, 59, 59, 0, 0⟩ := by
  refine ⟨?_, ?_, by decide, by decide⟩
  · intro now f tzSec cand h
    unfold syslogResolve
    rw [h]
  · intro now f tzSec dt h
    unfold syslogResolve at h
    cases hc : syslogCandidate now f tzSec with
    | none => rw [hc] at h; cases h
    | some cand =>
      rw [hc] at h
      have h2 : (if totalMicro now < totalMicro cand then
          mkDatetime? (now.year - 1) cand.month cand.day cand.hour cand.minute
            cand.second cand.microsecond tzSec
        else some cand) = some dt := h
      by_cases hlt : totalMicro now < totalMicro cand
      · rw [if_pos hlt] at h2
        exact mkDatetime_tz h2
      · rw [if_neg hlt] at h2
        injection h2 with h'
        rw [← h']
        exact syslogCandidate_tz hc

/-- Witness for C2: the year-correction equation applied at the claimed
concrete reference and fields. -/
theorem c2_syslog_previous_year_witness :
    syslogResolve ⟨2024, 1, 2, 0, 0, 0, 0, 0⟩ ⟨12, 31, 23, 59, 59, 0⟩ 0 =
      if totalMicro ⟨2024, 1, 2, 0, 0, 0, 0, 0⟩
          < totalMicro ⟨2024, 12, 31, 23, 59, 59, 0, 0⟩ then
        mkDatetime? (PyDateTime.year ⟨2024, 1, 2, 0, 0, 0, 0, 0⟩ - 1)
          12 31 23 59 59 0 0
      else some ⟨2024, 12, 31, 23, 59, 59, 0, 0⟩ :=
  c2_syslog_previous_year.1 ⟨2024, 1, 2, 0, 0, 0, 0, 0⟩ ⟨12, 31, 23, 59, 59, 0⟩
    0 ⟨2024, 12, 31, 23, 59, 59, 0, 0⟩ (by decide)

/-! ## Claim C5 — rotation `none` -/

/-- C5 counterexample: the code returns the base name unchanged only when the
rotation option contains `'auto'`; the literal policy `'none'` falls through
to the default branch and receives a `-YYYY` suffix. -/
theorem c5_rotation_none_gets_suffix :
    indexname ⟨"idx", "none", "", none⟩ ⟨2023, 1, 1, 0, 0, 0, 0, 0⟩
        ⟨2023, 1, 1, 0, 0, 0, 0, 0⟩ = "idx-2023"
  ∧ ¬ indexname ⟨"idx", "none", "", none⟩ ⟨2023, 1, 1, 0, 0, 0, 0, 0⟩
        ⟨2023, 1, 1, 0, 0, 0, 0, 0⟩ = "idx" := by
  decide

/-- C5 amended: the no-rotation policy of the code is `'auto'` (not `'none'`):
whenever the rotation option contains `'auto'`, the computed index name is
the configured base name unchanged, with no date suffix. -/
theorem c5_rotation_auto_unchanged (cfg : IndexConfig)
    (ts ing : PyDateTime) (h : pyIn "auto" cfg.index_rotation = true) :
    indexname cfg ts ing = cfg.index_name := by
  unfold indexname
  rw [h]
  simp

/-- Witness for C5 amended. -/
theorem c5_rotation_auto_unchanged_witness :
    indexname ⟨"idx", "auto", "", none⟩ ⟨2023, 1, 1, 0, 0, 0, 0, 0⟩
      ⟨2023, 1, 1, 0, 0, 0, 0, 0⟩ = "idx" :=
  c5_rotation_auto_unchanged _ _ _ (by decide)

/-! ## Claim C6 — weekly rotation suffix -/

/-- C6 counterexample: the weekly suffix uses `strftime('%W')` — the
Monday-first week with days before the year's first Monday in week 00 — not
the ISO week-of-year.  On 2023-01-01 (a Sunday) `%W` yields `00` while the
ISO week-of-year is 52, so the computed name differs from the claimed
`-YYYY-wWW` with an ISO week number. -/
theorem c6_weekly_not_iso_week :
    indexname ⟨"idx", "weekly", "", none⟩ ⟨2023, 1, 1, 0, 0, 0, 0, 0⟩
        ⟨2023, 1, 1, 0, 0, 0, 0, 0⟩ = "idx-2023-w00"
  ∧ isoWeekOfYear 2023 1 1 = 52
  ∧ ¬ indexname ⟨"idx", "weekly", "", none⟩ ⟨2023, 1, 1, 0, 0, 0, 0, 0⟩
        ⟨2023, 1, 1, 0, 0, 0, 0, 0⟩
      = "idx" ++ "-" ++ fmtYear 2023 ++ "-w" ++ fmt2 (isoWeekOfYear 2023 1 1) := by
  decide

/-- C6 amended: for a rotation option containing `'weekly'` (and neither
`'auto'` nor `'daily'`, which are tested first), the index name is the base
followed by `-YYYY-wWW` where `WW` is the two-digit *Monday-first* week
number (`%W`: days before the year's first Monday count as week 00) of the
driving timestamp converted to the configured rotation timezone. -/
theorem c6_weekly_is_monday_week (cfg : IndexConfig) (ts ing : PyDateTime)
    (hauto : pyIn "auto" cfg.index_rotation = false)
    (hdaily : pyIn "daily" cfg.index_rotation = false)
    (hweekly : pyIn "weekly" cfg.index_rotation = true) :
    indexname cfg ts ing
      = cfg.index_name ++ "-" ++ fmtYear (rotationDriver cfg ts ing).year
        ++ "-w" ++ fmt2 (weekW (rotationDriver cfg ts ing)) := by
  unfold indexname
  rw [hauto, hdaily, hweekly]
  simp

/-- Witness for C6 amended at a concrete weekly configuration. -/
theorem c6_weekly_is_monday_week_witness :
    indexname ⟨"idx", "weekly", "", none⟩ ⟨2023, 1, 1, 0, 0, 0, 0, 0⟩
        ⟨2023, 1, 1, 0, 0, 0, 0, 0⟩
      = "idx" ++ "-"
        ++ fmtYear (rotationDriver ⟨"idx", "weekly", "", none⟩
            ⟨2023, 1, 1, 0, 0, 0, 0, 0⟩ ⟨2023, 1, 1, 0, 0, 0, 0, 0⟩).year
        ++ "-w"
        ++ fmt2 (weekW (rotationDriver ⟨"idx", "weekly", "", none⟩
            ⟨2023, 1, 1, 0, 0, 0, 0, 0⟩ ⟨2023, 1, 1, 0, 0, 0, 0, 0⟩)) :=
  c6_weekly_is_monday_week _ _ _ (by decide) (by decide) (by decide)

/-! ## `transform_to_ecs` (source lines 557-597) and IP validation

`ipaddress.ip_address(v)` succeeds on IPv4/IPv6 address strings and on
integers within `[0, 2^128)`; `isValidIP` models its acceptance.  (Exotic
string forms — zone indices, IPv4-embedded IPv6 tails — are not modelled; no
claim depends on them.) -/

/-- One dotted-quad octet: 1-3 decimal digits, value at most 255, no leading
zero (Python's `ipaddress` rejects leading zeros). -/
def validOctet (g : List Char) : Bool :=
  !g.isEmpty && g.length ≤ 3 && g.all Char.isDigit
    && !(g.length > 1 && g.head? == some '0')
    && natOfDigits g ≤ 255

/-- IPv4 literal: four octets separated by dots. -/
def isIPv4 (s : String) : Bool :=
  match splitOnCharAux '.' [] s.data with
  | [a, b, c, d] => validOctet a && validOctet b && validOctet c && validOctet d
  | _ => false

/-- One IPv6 group: 1-4 hexadecimal digits. -/
def validHextet (g : List Char) : Bool :=
  !g.isEmpty && g.length ≤ 4 &&
    g.all (fun c => c.isDigit || ('a' ≤ c && c ≤ 'f') || ('A' ≤ c && c ≤ 'F'))

/-- IPv6 literal: eight groups, or fewer with a single `::` compression
(leading, trailing, in the middle, or `::` alone). -/
def isIPv6 (s : String) : Bool :=
  if s == "::" then true
  else
    let gs := splitOnCharAux ':' [] s.data
    let ne := gs.filter (fun g => !g.isEmpty)
    let allHex := ne.all validHextet
    if gs.all (fun g => !g.isEmpty) then
      gs.length == 8 && allHex
    else if 3 ≤ gs.length && 1 ≤ ne.length && ne.length ≤ 7 && allHex then
      (match gs with
       | [] :: [] :: rest => rest.all (fun g => !g.isEmpty)
       | _ => false)
      || (match gs.reverse with
          | [] :: [] :: rest => rest.all (fun g => !g.isEmpty)
          | _ => false)
      || (!(gs.head? == some []) && !(gs.getLast? == some [])
            && (gs.filter (fun g => g.isEmpty)).length == 1)
    else false

/-- `ipaddress.ip_address(v)` succeeds?  Strings must parse as IPv4/IPv6;
integers must lie in `[0, 2^128)`; Python `bool` is an `int` (0 or 1, both
valid addresses); everything else raises. -/
def isValidIP : Value → Bool
  | .vstr s => isIPv4 s || isIPv6 s
  | .vint n => decide (0 ≤ n) && decide (n < 2 ^ 128)
  | .vbool _ => true
  | _ => false

/-- The configuration slice consumed by `transform_to_ecs`: the ECS version
and cloud provider constants, the space-separated destination key list
`ecs`, the per-destination candidate source paths
(`fieldMap key = logconfig[key]`), and the static ECS constants. -/
structure EcsConfig where
  ecs_version : String
  cloud_provider : String
  ecs : String
  fieldMap : String → String
  static_ecs : String
  staticMap : String → String

/-- The entries of a dict value (a `put_value_into_dict` result is always a
dict for the non-empty paths used here). -/
def asEntries : Value → List (String × Value)
  | .vdict d => d
  | _ => []

/-- One iteration of the `for ecs_key in ecs_keys` loop of
`transform_to_ecs`: resolve the candidate source paths; when a truthy value
is found, build the fragment, and — for a destination key containing `.ip`
whose value does not validate as an IP address — `continue` without merging;
otherwise merge the fragment into the accumulated ECS dict.  (A `none` from
`put_value_into_dict` is a `RecursionError` in the source, which would abort
the whole entry; it requires a `"` in the destination key itself, which the
identifier-shaped ECS keys of the shipped configuration never contain —
that unreachable-in-scope branch is mapped to `acc`.) -/
def ecsMapStep (cfg : EcsConfig) (doc : List (String × Value))
    (acc : List (String × Value)) (ecs_key : String) : List (String × Value) :=
  match get_value_from_dict (.vdict doc) (cfg.fieldMap ecs_key) with
  | none => acc
  | some v =>
    match put_value_into_dict ecs_key v with
    | some new_ecs_dict =>
      if pyIn ".ip" ecs_key && !isValidIP v then acc
      else mergeV.entries acc (asEntries new_ecs_dict)
    | none => acc

/-- The full mapping loop over the configured destination keys. -/
def ecsMapFold (cfg : EcsConfig) (doc : List (String × Value))
    (acc : List (String × Value)) (keys : List String) :
    List (String × Value) :=
  List.foldl (ecsMapStep cfg doc) acc keys

/-- Python dict assignment `l[k] = v`: update in place, or append. -/
def setE (l : List (String × Value)) (k : String) (v : Value) :
    List (String × Value) :=
  if (lookupE l k).isSome then updateE l k v else l ++ [(k, v)]

/-- The cloud account/region defaulting of `transform_to_ecs` (source lines
579-590): when a `cloud` dict exists, default `cloud.account.id` from the
batch's account id and `cloud.region` from the batch's region or the literal
`'unknown'`.  (A non-dict value at `cloud` would crash the Python assignment
and does not occur: `cloud` is only ever created as a dict.) -/
def cloudDefaults (ecs : List (String × Value))
    (accountid region : Option String) : List (String × Value) :=
  match lookupE ecs "cloud" with
  | some (.vdict c) =>
    let hasAcct :=
      match lookupE c "account" with
      | some (.vdict a) => (lookupE a "id").isSome
      | some (.vstr s) => pyIn "id" s
      | _ => false
    let c1 := if hasAcct then c
      else match accountid with
           | some a => setE c "account" (.vdict [("id", .vstr a)])
           | none => c
    let c2 := if (lookupE c1 "region").isSome then c1
      else setE c1 "region" (.vstr (region.getD "unknown"))
    updateE ecs "cloud" (.vdict c2)
  | _ => ecs

/-- The final static-constant merge of `transform_to_ecs` (source lines
591-596): fragments from configured static keys, merged last.  (As in
`ecsMapStep`, the `none` branch of `put_value_into_dict` is a
`RecursionError` unreachable for configured keys.) -/
def staticFold (cfg : EcsConfig) (ecs : List (String × Value)) :
    List (String × Value) :=
  (pySplitWs cfg.static_ecs).foldl
    (fun acc k =>
      match put_value_into_dict k (.vstr (cfg.staticMap k)) with
      | some frag => mergeV.entries acc (asEntries frag)
      | none => acc)
    ecs

/-- `LogParser.transform_to_ecs`: seed the ECS dict with `ecs.version` and
`cloud.provider`, run the mapping loop, default the cloud account/region,
merge static constants, and merge the result into the document.  A total
function: no branch raises. -/
def transform_to_ecs (cfg : EcsConfig) (accountid region : Option String)
    (doc : List (String × Value)) : List (String × Value) :=
  let ecs0 : List (String × Value) :=
    [("ecs", .vdict [("version", .vstr cfg.ecs_version)])]
  let ecs1 := if !(cfg.cloud_provider == "") then
      ecs0 ++ [("cloud", .vdict [("provider", .vstr cfg.cloud_provider)])]
    else ecs0
  let ecs2 := ecsMapFold cfg doc ecs1 (pySplitWs cfg.ecs)
  let ecs3 := cloudDefaults ecs2 accountid region
  let ecs4 := staticFold cfg ecs3
  mergeV.entries doc ecs4

/-! ## Claim C8 — invalid `.ip` fragments are dropped, not failed -/

lemma listIsPrefixOf_refl : ∀ l : List Char, listIsPrefixOf l l = true := by
  intro l
  induction l with
  | nil => rfl
  | cons c t ih => simp [listIsPrefixOf, ih]

lemma listContains_suffix : ∀ (l n : List Char), listContains n (l ++ n) = true := by
  intro l n
  induction l with
  | nil =>
    cases n with
    | nil => rfl
    | cons c t => simp [listContains, listIsPrefixOf_refl]
  | cons c t ih =>
    show listContains n (c :: (t ++ n)) = true
    simp [listContains, ih]

lemma pyIn_dot_ip (p : String) : pyIn ".ip" (p ++ ".ip") = true := by
  unfold pyIn
  have hd : (p ++ ".ip").data = p.data ++ ".ip".data := rfl
  rw [hd]
  exact listContains_suffix p.data ".ip".data

/-- C8: for a destination key ending in `.ip` whose resolved source value
does not validate as an IPv4/IPv6 address, the built fragment is not merged
— the mapping step leaves the accumulated ECS dict unchanged — and the loop
continues: the fold over the full key list equals the fold with that key
removed, so the remaining mapping (and with it all later stages of the
total `transform_to_ecs`) still runs and the entry can still be accepted. -/
theorem c8_invalid_ip_dropped (cfg : EcsConfig)
    (doc acc : List (String × Value)) (p : String) (v : Value)
    (ks1 ks2 : List String)
    (hv : get_value_from_dict (.vdict doc) (cfg.fieldMap (p ++ ".ip")) = some v)
    (hip : isValidIP v = false) :
    ecsMapStep cfg doc acc (p ++ ".ip") = acc
  ∧ ecsMapFold cfg doc acc (ks1 ++ (p ++ ".ip") :: ks2)
      = ecsMapFold cfg doc acc (ks1 ++ ks2) := by
  have hstep : ∀ acc', ecsMapStep cfg doc acc' (p ++ ".ip") = acc' := by
    intro acc'
    have hred : ecsMapStep cfg doc acc' (p ++ ".ip")
        = (match put_value_into_dict (p ++ ".ip") v with
           | some new_ecs_dict =>
             if pyIn ".ip" (p ++ ".ip") && !isValidIP v then acc'
             else mergeV.entries acc' (asEntries new_ecs_dict)
           | none => acc') := by
      unfold ecsMapStep
      rw [hv]
    rw [hred]
    cases put_value_into_dict (p ++ ".ip") v with
    | none => rfl
    | some frag => simp [pyIn_dot_ip, hip]
  refine ⟨hstep acc, ?_⟩
  unfold ecsMapFold
  rw [List.foldl_append, List.foldl_append, List.foldl_cons, hstep]

/-- Witness for C8: a `source.ip` destination mapped from the unparseable
value `"not-an-ip"` is dropped while the neighbouring `user.name` mapping
still runs. -/
theorem c8_invalid_ip_dropped_witness :
    ecsMapStep
      ⟨"1.6.0", "aws", "source.ip user.name",
        (fun k => if k == "source.ip" then "src" else "user"),
        "", fun _ => ""⟩
      [("src", .vstr "not-an-ip"), ("user", .vstr "bob")]
      [("ecs", .vdict [("version", .vstr "1.6.0")])] ("source" ++ ".ip")
      = [("ecs", .vdict [("version", .vstr "1.6.0")])]
  ∧ ecsMapFold
      ⟨"1.6.0", "aws", "source.ip user.name",
        (fun k => if k == "source.ip" then "src" else "user"),
        "", fun _ => ""⟩
      [("src", .vstr "not-an-ip"), ("user", .vstr "bob")]
      [("ecs", .vdict [("version", .vstr "1.6.0")])]
      ([] ++ ("source" ++ ".ip") :: ["user.name"])
      = ecsMapFold
        ⟨"1.6.0", "aws", "source.ip user.name",
          (fun k => if k == "source.ip" then "src" else "user"),
          "", fun _ => ""⟩
        [("src", .vstr "not-an-ip"), ("user", .vstr "bob")]
        [("ecs", .vdict [("version", .vstr "1.6.0")])]
        ([] ++ ["user.name"]) :=
  c8_invalid_ip_dropped _ _ _ "source" (.vstr "not-an-ip") [] ["user.name"]
    (by decide) (by decide)
